import Mathlib

set_option maxRecDepth 8192

/-!
Verification of the aspmctl PCI Express ASPM configuration tool.

The program locates the PCI Express capability structure inside a raw
configuration-space buffer by walking the capability linked list, derives
the 2-byte Link Control register range, and applies a masked read-modify-write
patch.  The definitions below are a shallow embedding of `src/main.rs`:
buffers are `List Nat` (byte values), machine integers are `Nat` with explicit
truncation where the source truncates, diagnostic output (`eprintln!`) is an
explicit `List String` component of each result, and the `Option` component
mirrors the source's return value.
-/

namespace Aspmctl

def PCI_CAPABILITY_LIST : Nat := 0x34

def PCI_CAP_ID_EXP : Nat := 0x10

def PCI_CAP_ID_EXP_LEN : Nat := 0x3c

def PCI_EXP_LNKCTL : Nat := 0x10

def PCI_EXP_LNKCTL_ASPM_L0S : Nat := 0x0001

def PCI_EXP_LNKCTL_ASPM_L1 : Nat := 0x0002

/-- The `loop` of `find_pci_capability` in `src/main.rs`, starting from a given
value of `capability_pointer`.  The first component of the result collects the
`eprintln!` diagnostics, the second is the returned `Option<Range<usize>>`
(a range is modelled as a start/end pair).  Out-of-range reads (the `?`
operator on `config_buffer.get(..)`) return `([], none)` silently. -/
def find_loop (config_buffer : List Nat)
    (target_capability_id target_capability_length : Nat)
    (capability_pointer : Nat) : List String × Option (Nat × Nat) :=
  match h1 : config_buffer[capability_pointer]? with
  | none => ([], none)
  | some capability_id =>
    match config_buffer[capability_pointer + 1]? with
    | none => ([], none)
    | some next_capability_pointer =>
      if next_capability_pointer ≠ 0 ∧ next_capability_pointer < capability_pointer + 2 then
        (["error: next capability pointer invalid"], none)
      else if capability_id = target_capability_id then
        if (next_capability_pointer ≥ capability_pointer ∧
              target_capability_length > next_capability_pointer - capability_pointer)
            ∨ target_capability_length > config_buffer.length - capability_pointer then
          (["error: capability length overflow"], none)
        else
          ([], some (capability_pointer, capability_pointer + target_capability_length))
      else if next_capability_pointer > capability_pointer then
        find_loop config_buffer target_capability_id target_capability_length
          next_capability_pointer
      else
        ([], none)
termination_by config_buffer.length - capability_pointer
decreasing_by
  have hp : capability_pointer < config_buffer.length := by
    by_contra hc
    rw [List.getElem?_eq_none (by omega)] at h1
    exact Option.noConfusion h1
  omega

/-- The function `find_pci_capability` from `src/main.rs`: reads the head capability pointer
at offset `0x34` and enters the traversal loop. -/
def find_pci_capability (config_buffer : List Nat)
    (target_capability_id target_capability_length : Nat) :
    List String × Option (Nat × Nat) :=
  match config_buffer[PCI_CAPABILITY_LIST]? with
  | none => ([], none)
  | some capability_pointer =>
    find_loop config_buffer target_capability_id target_capability_length
      capability_pointer

/-- The function `find_pci_exp_link_control` from `src/main.rs`. -/
def find_pci_exp_link_control (config_buffer : List Nat) :
    List String × Option (Nat × Nat) :=
  match find_pci_capability config_buffer PCI_CAP_ID_EXP PCI_CAP_ID_EXP_LEN with
  | (msgs, none) =>
    (msgs ++ ["error: unable to find pci express capability structure"], none)
  | (msgs, some capability_range) =>
    (msgs, some (capability_range.1 + PCI_EXP_LNKCTL,
                 capability_range.1 + PCI_EXP_LNKCTL + 2))

/-- The new register value computed on line 142 of `src/main.rs`:
`(old & !mask) | flags` on `u16`, where `!mask` is the 16-bit complement. -/
def link_control_new (link_control_old_value mask flags : Nat) : Nat :=
  (link_control_old_value &&& (0xFFFF ^^^ mask)) ||| flags

/-- The tail of `main` in `src/main.rs` (lines 140-158), after the
configuration buffer has been read: resolve the Link Control range, read the
old 2-byte little-endian value, compute the new value and perform the
conditional positioned write.  The result is `none` when the run fails and
`some ws` when it succeeds having performed exactly the positioned writes
`ws` (offset paired with the written bytes). -/
def run_patch (config_buffer : List Nat) (mask flags : Nat) :
    Option (List (Nat × List Nat)) :=
  match find_pci_exp_link_control config_buffer with
  | (_, none) => none
  | (_, some link_control_range) =>
    match config_buffer[link_control_range.1]?,
          config_buffer[link_control_range.1 + 1]? with
    | some low_byte, some high_byte =>
      let link_control_old_value := (high_byte <<< 8) ||| low_byte
      let link_control_new_value := link_control_new link_control_old_value mask flags
      if link_control_new_value ≠ link_control_old_value then
        some [(link_control_range.1,
               [link_control_new_value % 256, (link_control_new_value >>> 8) % 256])]
      else
        some []
    | _, _ => none

/-- The `Args` structure of `src/main.rs`. -/
structure Args where
  mask : Nat
  flags : Nat
  path : String
deriving DecidableEq, Repr

/-- The test `arg.starts_with("--")` from `src/main.rs`, phrased over the string's
character list: the first two characters are both dashes. -/
def startsWithDashDash (arg : String) : Bool := arg.data.take 2 = ['-', '-']

/-- The argument-processing loop of `parse_args` in `src/main.rs`, with the
iterator state and the three accumulators made explicit.  `flags &= !BIT` is
modelled as `flags &&& (0xFFFF ^^^ BIT)` (16-bit complement on `u16`). -/
def parse_args_loop (args : List String) (path : Option String)
    (flags mask : Nat) : Option Args :=
  match args with
  | [] =>
    match path with
    | none => none
    | some path => some ⟨mask, flags, path⟩
  | arg :: rest =>
    if arg = "--enable-l0s" then
      parse_args_loop rest path (flags ||| PCI_EXP_LNKCTL_ASPM_L0S)
        (mask ||| PCI_EXP_LNKCTL_ASPM_L0S)
    else if arg = "--disable-l0s" then
      parse_args_loop rest path (flags &&& (0xFFFF ^^^ PCI_EXP_LNKCTL_ASPM_L0S))
        (mask ||| PCI_EXP_LNKCTL_ASPM_L0S)
    else if arg = "--enable-l1" then
      parse_args_loop rest path (flags ||| PCI_EXP_LNKCTL_ASPM_L1)
        (mask ||| PCI_EXP_LNKCTL_ASPM_L1)
    else if arg = "--disable-l1" then
      parse_args_loop rest path (flags &&& (0xFFFF ^^^ PCI_EXP_LNKCTL_ASPM_L1))
        (mask ||| PCI_EXP_LNKCTL_ASPM_L1)
    else if startsWithDashDash arg then
      none
    else
      match path with
      | none => parse_args_loop rest (some arg) flags mask
      | some _ => none

/-- The function `parse_args` from `src/main.rs`, applied to the argument list that follows
the program name. -/
def parse_args (args : List String) : Option Args :=
  parse_args_loop args none 0 0

/-- The value demanded by the last `--enable-*`/`--disable-*` option naming a
given bit: `true` after `en`, `false` after `dis`, the supplied default when
no option in `args` names the bit. -/
def lastDirective (args : List String) (en dis : String) (dflt : Bool) : Bool :=
  match args.reverse.find? (fun a => a == en || a == dis) with
  | some a => a == en
  | none => dflt

/-- Fuel-indexed variant of `find_loop`, used to express termination: `none`
means the iteration budget ran out, `some r` that the loop returned `r`
within the budget. -/
def find_loop_fuel (config_buffer : List Nat)
    (target_capability_id target_capability_length : Nat) :
    Nat → Nat → Option (List String × Option (Nat × Nat))
  | 0, _ => none
  | fuel + 1, capability_pointer =>
    match config_buffer[capability_pointer]? with
    | none => some ([], none)
    | some capability_id =>
      match config_buffer[capability_pointer + 1]? with
      | none => some ([], none)
      | some next_capability_pointer =>
        if next_capability_pointer ≠ 0 ∧ next_capability_pointer < capability_pointer + 2 then
          some (["error: next capability pointer invalid"], none)
        else if capability_id = target_capability_id then
          if (next_capability_pointer ≥ capability_pointer ∧
                target_capability_length > next_capability_pointer - capability_pointer)
              ∨ target_capability_length > config_buffer.length - capability_pointer then
            some (["error: capability length overflow"], none)
          else
            some ([], some (capability_pointer,
                            capability_pointer + target_capability_length))
        else if next_capability_pointer > capability_pointer then
          find_loop_fuel config_buffer target_capability_id target_capability_length
            fuel next_capability_pointer
        else
          some ([], none)

/-- Reachability along the capability list's `next` pointers: `Reach buf p q`
holds when the chain of non-zero `next` links leads from offset `p` to
offset `q`. -/
inductive Reach (buf : List Nat) : Nat → Nat → Prop
  | refl (p : Nat) : Reach buf p p
  | step {p nx q : Nat} : buf[p + 1]? = some nx → nx ≠ 0 →
      Reach buf nx q → Reach buf p q

/-- A valid forward-only capability chain starting at offset `p`: every entry
has its id and next byte inside the buffer, and each `next` is either `0`
(end of list) or at least `p + 2` (strictly forward, past the 2-byte
header). -/
inductive ValidFrom (buf : List Nat) : Nat → Prop
  | term {p id : Nat} : buf[p]? = some id → buf[p + 1]? = some 0 →
      ValidFrom buf p
  | step {p id nx : Nat} : buf[p]? = some id → buf[p + 1]? = some nx →
      p + 2 ≤ nx → ValidFrom buf nx → ValidFrom buf p

/-- The offsets visited by the traversal loop for a given target id before any
match: `Visits buf tid p q` holds when the loop started at `p` steps through
non-matching, well-formed, forward entries and arrives at `q`. -/
inductive Visits (buf : List Nat) (tid : Nat) : Nat → Nat → Prop
  | refl (p : Nat) : Visits buf tid p p
  | step {p id nx q : Nat} : buf[p]? = some id → buf[p + 1]? = some nx →
      ¬(nx ≠ 0 ∧ nx < p + 2) → id ≠ tid → p < nx →
      Visits buf tid nx q → Visits buf tid p q

/-- The traversal loop started at `p` reaches, through well-formed
non-matching forward entries, a first entry with the target id at offset `q`
that passes the loop's length checks. -/
inductive FindsFirst (buf : List Nat) (tid tlen : Nat) : Nat → Nat → Prop
  | here {p id nx : Nat} : buf[p]? = some id → buf[p + 1]? = some nx →
      id = tid → ¬(nx ≠ 0 ∧ nx < p + 2) →
      ¬((nx ≥ p ∧ tlen > nx - p) ∨ tlen > buf.length - p) →
      FindsFirst buf tid tlen p p
  | there {p id nx q : Nat} : buf[p]? = some id → buf[p + 1]? = some nx →
      id ≠ tid → ¬(nx ≠ 0 ∧ nx < p + 2) → p < nx →
      FindsFirst buf tid tlen nx q → FindsFirst buf tid tlen p q

/-- Room for `0x3c` bytes at entry offset `q`, in the sense of the
specification: at least `0x3c` bytes up to the next entry (when one exists,
i.e. `next ≠ 0`) and at least `0x3c` bytes up to the end of the buffer. -/
def RoomOK (buf : List Nat) (q : Nat) : Prop :=
  (∀ nx, buf[q + 1]? = some nx → nx ≠ 0 → 0x3c ≤ nx - q) ∧
    0x3c ≤ buf.length - q

/-- Build a byte buffer of length `len`, all zero except for the listed
`(offset, value)` assignments. -/
def mkBuf (len : Nat) (assigns : List (Nat × Nat)) : List Nat :=
  assigns.foldl (fun b a => b.set a.1 a.2) (List.replicate len 0)

/-- Counterexample buffer for C1: head pointer `0x40`; a first id-`0x10`
entry at `0x40` with only 4 bytes of room to the next entry at `0x44`; a
second id-`0x10` entry at `0x44` that terminates the list and has exactly
`0x3c` bytes of room to the buffer end. -/
def cexBufC1 : List Nat :=
  mkBuf 0x80 [(0x34, 0x40), (0x40, 0x10), (0x41, 0x44), (0x44, 0x10)]

/-- Buffer for the C3 counterexample: length exactly `0x3c`, head pointer `0`
(so the first entry is read at offset `0`), entry `id = 0x10`, `next = 0`. -/
def cexBufC3 : List Nat := mkBuf 0x3c [(0x34, 0), (0x00, 0x10), (0x01, 0)]

/-- Well-formed buffer used as a witness: head pointer `0x40`; entry at
`0x40` with `id = 0x05`, `next = 0x50`; entry at `0x50` with `id = 0x10`,
`next = 0` and `0x3c` bytes of room to the buffer end. -/
def wbuf : List Nat :=
  mkBuf 0x8c [(0x34, 0x40), (0x40, 0x05), (0x41, 0x50), (0x50, 0x10), (0x51, 0)]

/-- Witness buffer for C3 (amended): head pointer `0x10`; single entry at
`0x10` with `id = 0x10`, `next = 0`, `0x40` bytes of room to the buffer
end. -/
def wbufC3 : List Nat := mkBuf 0x50 [(0x34, 0x10), (0x10, 0x10), (0x11, 0)]

/-- Witness buffer for C4: head pointer `0x40`; entry at `0x40` whose id
`0x10` equals the target and whose `next = 0x41` violates forward
progress (`0 < 0x41 < 0x42`). -/
def wbufC4 : List Nat := mkBuf 0x60 [(0x34, 0x40), (0x40, 0x10), (0x41, 0x41)]

/-- Witness buffer for C5: head pointer `0x40`; single terminal entry at
`0x40` with `id = 0x05 ≠ 0x10`, `next = 0`. -/
def wbufC5 : List Nat := mkBuf 0x42 [(0x34, 0x40), (0x40, 0x05), (0x41, 0)]

/-- C7 buffer exhibiting the not-found failure: single terminal entry with a
non-matching id. -/
def bufNotFound : List Nat := mkBuf 0x44 [(0x34, 0x40), (0x40, 0x05), (0x41, 0)]

/-- C7 buffer exhibiting the malformed-list failure: the entry at `0x40`
has `next = 0x41`, inside its own 2-byte header. -/
def bufMalformed : List Nat := mkBuf 0x44 [(0x34, 0x40), (0x40, 0x05), (0x41, 0x41)]

/-- C7 buffer exhibiting the length-overflow failure: the entry at `0x40`
matches id `0x10` but only `4` bytes remain to the buffer end. -/
def bufOverflow : List Nat := mkBuf 0x44 [(0x34, 0x40), (0x40, 0x10), (0x41, 0)]

/-! ### Step lemmas for the traversal loop -/

theorem find_loop_oob_id {buf : List Nat} {tid tlen p : Nat}
    (h1 : buf[p]? = none) : find_loop buf tid tlen p = ([], none) := by
  rw [find_loop.eq_def, h1]

theorem find_loop_oob_next {buf : List Nat} {tid tlen p id : Nat}
    (h1 : buf[p]? = some id) (h2 : buf[p + 1]? = none) :
    find_loop buf tid tlen p = ([], none) := by
  rw [find_loop.eq_def, h1, h2]

theorem find_loop_malformed {buf : List Nat} {tid tlen p id nx : Nat}
    (h1 : buf[p]? = some id) (h2 : buf[p + 1]? = some nx)
    (hm : nx ≠ 0) (hlt : nx < p + 2) :
    find_loop buf tid tlen p = (["error: next capability pointer invalid"], none) := by
  rw [find_loop.eq_def, h1, h2]
  simp [hm, hlt]

theorem find_loop_overflow {buf : List Nat} {tid tlen p nx : Nat}
    (h1 : buf[p]? = some tid) (h2 : buf[p + 1]? = some nx)
    (hm : ¬(nx ≠ 0 ∧ nx < p + 2))
    (hov : (nx ≥ p ∧ tlen > nx - p) ∨ tlen > buf.length - p) :
    find_loop buf tid tlen p = (["error: capability length overflow"], none) := by
  rw [find_loop.eq_def, h1, h2]
  simp [hm, hov]

theorem find_loop_found {buf : List Nat} {tid tlen p nx : Nat}
    (h1 : buf[p]? = some tid) (h2 : buf[p + 1]? = some nx)
    (hm : ¬(nx ≠ 0 ∧ nx < p + 2))
    (hov : ¬((nx ≥ p ∧ tlen > nx - p) ∨ tlen > buf.length - p)) :
    find_loop buf tid tlen p = ([], some (p, p + tlen)) := by
  rw [find_loop.eq_def, h1, h2]
  simp [hm, hov]

theorem find_loop_skip {buf : List Nat} {tid tlen p id nx : Nat}
    (h1 : buf[p]? = some id) (h2 : buf[p + 1]? = some nx)
    (hm : ¬(nx ≠ 0 ∧ nx < p + 2)) (hid : id ≠ tid) (hfw : nx > p) :
    find_loop buf tid tlen p = find_loop buf tid tlen nx := by
  rw [find_loop.eq_def, h1, h2]
  simp only [hm, if_false, hid, if_pos hfw]

theorem find_loop_endlist {buf : List Nat} {tid tlen p id nx : Nat}
    (h1 : buf[p]? = some id) (h2 : buf[p + 1]? = some nx)
    (hm : ¬(nx ≠ 0 ∧ nx < p + 2)) (hid : id ≠ tid) (hfw : ¬nx > p) :
    find_loop buf tid tlen p = ([], none) := by
  rw [find_loop.eq_def, h1, h2]
  simp only [hm, if_false, hid, hfw]

/-! ### Fuel equivalence and bounds on success -/

theorem getElem?_lt {buf : List Nat} {p v : Nat} (h : buf[p]? = some v) :
    p < buf.length := by
  by_contra hc
  rw [List.getElem?_eq_none (by omega)] at h
  exact Option.noConfusion h

theorem find_loop_fuel_eq {buf : List Nat} {tid tlen : Nat} :
    ∀ fuel p, buf.length - p < fuel →
      find_loop_fuel buf tid tlen fuel p = some (find_loop buf tid tlen p) := by
  intro fuel
  induction fuel with
  | zero => intro p hp; omega
  | succ fuel ih =>
    intro p hp
    cases h1 : buf[p]? with
    | none => rw [find_loop_oob_id h1]; simp [find_loop_fuel, h1]
    | some id =>
      cases h2 : buf[p + 1]? with
      | none => rw [find_loop_oob_next h1 h2]; simp [find_loop_fuel, h1, h2]
      | some nx =>
        have hplen : p < buf.length := getElem?_lt h1
        by_cases hm : nx ≠ 0 ∧ nx < p + 2
        · rw [find_loop_malformed h1 h2 hm.1 hm.2]
          simp [find_loop_fuel, h1, h2, hm]
        · by_cases hid : id = tid
          · subst hid
            by_cases hov : (nx ≥ p ∧ tlen > nx - p) ∨ tlen > buf.length - p
            · rw [find_loop_overflow h1 h2 hm hov]
              simp [find_loop_fuel, h1, h2, hm, hov]
            · rw [find_loop_found h1 h2 hm hov]
              simp [find_loop_fuel, h1, h2, hm, hov]
          · by_cases hfw : nx > p
            · rw [find_loop_skip h1 h2 hm hid hfw]
              have hrec := ih nx (by omega)
              simp [find_loop_fuel, h1, h2, hm, hid, hfw, hrec]
            · rw [find_loop_endlist h1 h2 hm hid hfw]
              simp [find_loop_fuel, h1, h2, hm, hid, hfw]

theorem find_loop_fuel_some_bounds {buf : List Nat} {tid tlen : Nat} :
    ∀ fuel p m s e,
      find_loop_fuel buf tid tlen fuel p = some (m, some (s, e)) →
      s < buf.length ∧ s + tlen ≤ buf.length ∧ e = s + tlen ∧ m = [] := by
  intro fuel
  induction fuel with
  | zero => intro p m s e h; simp [find_loop_fuel] at h
  | succ fuel ih =>
    intro p m s e h
    cases h1 : buf[p]? with
    | none => simp [find_loop_fuel, h1] at h
    | some id =>
      cases h2 : buf[p + 1]? with
      | none => simp [find_loop_fuel, h1, h2] at h
      | some nx =>
        have hplen : p < buf.length := getElem?_lt h1
        by_cases hm : nx ≠ 0 ∧ nx < p + 2
        · simp [find_loop_fuel, h1, h2, hm] at h
        · by_cases hid : id = tid
          · subst hid
            by_cases hov : (nx ≥ p ∧ tlen > nx - p) ∨ tlen > buf.length - p
            · simp [find_loop_fuel, h1, h2, hm, hov] at h
            · simp only [find_loop_fuel, h1, h2, hm, hov] at h
              simp at h
              obtain ⟨hme, hs, he⟩ := h
              refine ⟨by omega, by omega, by omega, hme⟩
          · by_cases hfw : nx > p
            · simp only [find_loop_fuel, h1, h2, hm, hid, hfw] at h
              simp [hid] at h
              exact ih nx m s e h
            · simp [find_loop_fuel, h1, h2, hm, hid, hfw] at h

theorem find_loop_some_bounds {buf : List Nat} {tid tlen p : Nat}
    {m : List String} {s e : Nat}
    (h : find_loop buf tid tlen p = (m, some (s, e))) :
    s < buf.length ∧ s + tlen ≤ buf.length ∧ e = s + tlen ∧ m = [] := by
  have hfe := @find_loop_fuel_eq buf tid tlen (buf.length + 1) p (by omega)
  rw [h] at hfe
  exact find_loop_fuel_some_bounds (buf.length + 1) p m s e hfe

theorem find_pci_capability_some {buf : List Nat} {tid tlen : Nat}
    {m : List String} {s e : Nat}
    (h : find_pci_capability buf tid tlen = (m, some (s, e))) :
    s < buf.length ∧ s + tlen ≤ buf.length ∧ e = s + tlen ∧ m = [] := by
  unfold find_pci_capability at h
  cases hh : buf[PCI_CAPABILITY_LIST]? with
  | none => rw [hh] at h; exact absurd (congrArg Prod.snd h) (by simp)
  | some hd => rw [hh] at h; exact find_loop_some_bounds h

theorem find_pci_exp_link_control_some {buf : List Nat}
    {m : List String} {s e : Nat}
    (h : find_pci_exp_link_control buf = (m, some (s, e))) :
    ∃ cs, find_pci_capability buf PCI_CAP_ID_EXP PCI_CAP_ID_EXP_LEN =
            ([], some (cs, cs + PCI_CAP_ID_EXP_LEN)) ∧
          s = cs + PCI_EXP_LNKCTL ∧ e = cs + PCI_EXP_LNKCTL + 2 ∧
          cs + PCI_CAP_ID_EXP_LEN ≤ buf.length ∧ m = [] := by
  unfold find_pci_exp_link_control at h
  rcases hfc : find_pci_capability buf PCI_CAP_ID_EXP PCI_CAP_ID_EXP_LEN with ⟨ms, os⟩
  cases os with
  | none => rw [hfc] at h; exact absurd (congrArg Prod.snd h) (by simp)
  | some r =>
    rw [hfc] at h
    simp only [Prod.mk.injEq] at h
    obtain ⟨hm, hse⟩ := h
    obtain ⟨hs, he⟩ := Prod.mk.injEq .. ▸ (Option.some.injEq .. ▸ hse)
    obtain ⟨hr1, hr2, hr3, hms⟩ := find_pci_capability_some hfc
    refine ⟨r.1, ?_, by omega, by omega, by omega, by rw [← hm, hms]⟩
    rw [hms, ← hr3]

/-! ### Chain lemmas -/

theorem visits_loop {buf : List Nat} {tid p q : Nat} (tlen : Nat)
    (hv : Visits buf tid p q) :
    find_loop buf tid tlen p = find_loop buf tid tlen q := by
  induction hv with
  | refl p => rfl
  | step h1 h2 hm hid hfw _ ih =>
    rw [find_loop_skip h1 h2 hm hid hfw, ih]

theorem findsfirst_loop {buf : List Nat} {tid tlen p q : Nat}
    (hf : FindsFirst buf tid tlen p q) :
    find_loop buf tid tlen p = ([], some (q, q + tlen)) := by
  induction hf with
  | here h1 h2 hid hm hov =>
    subst hid
    exact find_loop_found h1 h2 hm hov
  | there h1 h2 hid hm hfw _ ih =>
    rw [find_loop_skip h1 h2 hm hid hfw, ih]

theorem valid_nomatch_loop {buf : List Nat} {tid p : Nat} (tlen : Nat)
    (hv : ValidFrom buf p)
    (hno : ∀ q, Reach buf p q → buf[q]? ≠ some tid) :
    find_loop buf tid tlen p = ([], none) := by
  induction hv with
  | term h1 h2 =>
    have hid : _ ≠ tid := fun hq => hno _ (Reach.refl _) (hq ▸ h1)
    exact find_loop_endlist h1 h2 (by simp) hid (by omega)
  | step h1 h2 hfw _ ih =>
    rename_i p id nx hvnext
    have hid : id ≠ tid := fun hq => hno _ (Reach.refl _) (hq ▸ h1)
    rw [find_loop_skip h1 h2 (by omega) hid (by omega)]
    exact ih fun q hr => hno q (Reach.step h2 (by omega) hr)

/-! ### Concrete evaluations -/

theorem cap_of_head {buf : List Nat} {tid tlen hd : Nat}
    (h : buf[PCI_CAPABILITY_LIST]? = some hd) :
    find_pci_capability buf tid tlen = find_loop buf tid tlen hd := by
  unfold find_pci_capability
  rw [h]

theorem resolve_of_fail {buf : List Nat} {m : List String}
    (h : find_pci_capability buf PCI_CAP_ID_EXP PCI_CAP_ID_EXP_LEN = (m, none)) :
    find_pci_exp_link_control buf =
      (m ++ ["error: unable to find pci express capability structure"], none) := by
  unfold find_pci_exp_link_control
  rw [h]

theorem reach_of_term {buf : List Nat} {p q : Nat}
    (h2 : buf[p + 1]? = some 0) (hr : Reach buf p q) : q = p := by
  cases hr with
  | refl => rfl
  | step h2' hnz _ =>
    rw [h2] at h2'
    exact absurd (Option.some.inj h2').symm hnz

theorem wbuf_cap :
    find_pci_capability wbuf PCI_CAP_ID_EXP PCI_CAP_ID_EXP_LEN =
      ([], some (0x50, 0x8c)) := by
  unfold find_pci_capability
  rw [show wbuf[PCI_CAPABILITY_LIST]? = some 0x40 by decide]
  show find_loop wbuf PCI_CAP_ID_EXP PCI_CAP_ID_EXP_LEN 0x40 = ([], some (0x50, 0x8c))
  rw [@find_loop_skip wbuf PCI_CAP_ID_EXP PCI_CAP_ID_EXP_LEN 0x40 0x05 0x50
    (by decide) (by decide) (by decide) (by decide) (by decide)]
  exact @find_loop_found wbuf PCI_CAP_ID_EXP PCI_CAP_ID_EXP_LEN 0x50 0
    (by decide) (by decide) (by decide) (by decide)

theorem wbuf_resolve :
    find_pci_exp_link_control wbuf = ([], some (0x60, 0x62)) := by
  unfold find_pci_exp_link_control
  rw [wbuf_cap]
  decide

theorem cexBufC1_resolve :
    find_pci_exp_link_control cexBufC1 =
      (["error: capability length overflow",
        "error: unable to find pci express capability structure"], none) := by
  have h : find_pci_capability cexBufC1 PCI_CAP_ID_EXP PCI_CAP_ID_EXP_LEN =
      (["error: capability length overflow"], none) := by
    rw [cap_of_head (show cexBufC1[PCI_CAPABILITY_LIST]? = some 0x40 by decide)]
    exact @find_loop_overflow cexBufC1 PCI_CAP_ID_EXP PCI_CAP_ID_EXP_LEN 0x40 0x44
      (by decide) (by decide) (by decide) (by decide)
  rw [resolve_of_fail h]
  rfl

theorem cexBufC3_cap :
    find_pci_capability cexBufC3 PCI_CAP_ID_EXP PCI_CAP_ID_EXP_LEN =
      (["error: capability length overflow"], none) := by
  rw [cap_of_head (show cexBufC3[PCI_CAPABILITY_LIST]? = some 0 by decide)]
  exact @find_loop_overflow cexBufC3 PCI_CAP_ID_EXP PCI_CAP_ID_EXP_LEN 0 0
    (by decide) (by decide) (by decide) (by decide)

theorem bufNotFound_resolve :
    find_pci_exp_link_control bufNotFound =
      (["error: unable to find pci express capability structure"], none) := by
  have h : find_pci_capability bufNotFound PCI_CAP_ID_EXP PCI_CAP_ID_EXP_LEN =
      ([], none) := by
    rw [cap_of_head (show bufNotFound[PCI_CAPABILITY_LIST]? = some 0x40 by decide)]
    exact @find_loop_endlist bufNotFound PCI_CAP_ID_EXP PCI_CAP_ID_EXP_LEN 0x40 0x05 0
      (by decide) (by decide) (by decide) (by decide) (by decide)
  rw [resolve_of_fail h]
  rfl

theorem bufMalformed_resolve :
    find_pci_exp_link_control bufMalformed =
      (["error: next capability pointer invalid",
        "error: unable to find pci express capability structure"], none) := by
  have h : find_pci_capability bufMalformed PCI_CAP_ID_EXP PCI_CAP_ID_EXP_LEN =
      (["error: next capability pointer invalid"], none) := by
    rw [cap_of_head (show bufMalformed[PCI_CAPABILITY_LIST]? = some 0x40 by decide)]
    exact @find_loop_malformed bufMalformed PCI_CAP_ID_EXP PCI_CAP_ID_EXP_LEN 0x40 0x05 0x41
      (by decide) (by decide) (by decide) (by decide)
  rw [resolve_of_fail h]
  rfl

theorem bufOverflow_resolve :
    find_pci_exp_link_control bufOverflow =
      (["error: capability length overflow",
        "error: unable to find pci express capability structure"], none) := by
  have h : find_pci_capability bufOverflow PCI_CAP_ID_EXP PCI_CAP_ID_EXP_LEN =
      (["error: capability length overflow"], none) := by
    rw [cap_of_head (show bufOverflow[PCI_CAPABILITY_LIST]? = some 0x40 by decide)]
    exact @find_loop_overflow bufOverflow PCI_CAP_ID_EXP PCI_CAP_ID_EXP_LEN 0x40 0
      (by decide) (by decide) (by decide) (by decide)
  rw [resolve_of_fail h]
  rfl

/-! ### Argument-parsing lemmas -/

theorem lastDirective_nil (en dis : String) (d : Bool) :
    lastDirective [] en dis d = d := rfl

theorem lastDirective_cons (a : String) (rest : List String) (en dis : String)
    (d : Bool) :
    lastDirective (a :: rest) en dis d =
      lastDirective rest en dis (if a == en || a == dis then a == en else d) := by
  unfold lastDirective
  rw [List.reverse_cons, List.find?_append]
  cases hf : rest.reverse.find? (fun x => x == en || x == dis) with
  | some x => simp [Option.or]
  | none =>
    cases hp : (a == en || a == dis) with
    | true => simp [Option.or, List.find?, hp]
    | false => simp [Option.or, List.find?, hp]

theorem parse_step_facts : ∀ f m : Nat, f < 4 → m < 4 →
    f &&& (0xFFFF ^^^ m) = 0 →
    (f ||| 1 < 4 ∧ m ||| 1 < 4 ∧ (f ||| 1) &&& (0xFFFF ^^^ (m ||| 1)) = 0 ∧
      (f ||| 1).testBit 0 = true ∧ (f ||| 1).testBit 1 = f.testBit 1) ∧
    (f &&& (0xFFFF ^^^ 1) < 4 ∧
      (f &&& (0xFFFF ^^^ 1)) &&& (0xFFFF ^^^ (m ||| 1)) = 0 ∧
      (f &&& (0xFFFF ^^^ 1)).testBit 0 = false ∧
      (f &&& (0xFFFF ^^^ 1)).testBit 1 = f.testBit 1) ∧
    (f ||| 2 < 4 ∧ m ||| 2 < 4 ∧ (f ||| 2) &&& (0xFFFF ^^^ (m ||| 2)) = 0 ∧
      (f ||| 2).testBit 1 = true ∧ (f ||| 2).testBit 0 = f.testBit 0) ∧
    (f &&& (0xFFFF ^^^ 2) < 4 ∧
      (f &&& (0xFFFF ^^^ 2)) &&& (0xFFFF ^^^ (m ||| 2)) = 0 ∧
      (f &&& (0xFFFF ^^^ 2)).testBit 1 = false ∧
      (f &&& (0xFFFF ^^^ 2)).testBit 0 = f.testBit 0) := by
  intro f m hf hm h
  interval_cases f <;> interval_cases m <;> revert h <;> decide

theorem mask_or_monotone {m b : Nat} (i : Nat) (h : m.testBit i = true) :
    (m ||| b).testBit i = true := by
  simp [Nat.testBit_or, h]

theorem lastDirective_cons_other {a en dis : String} (rest : List String)
    (d : Bool) (hne : (a == en || a == dis) = false) :
    lastDirective (a :: rest) en dis d = lastDirective rest en dis d := by
  rw [lastDirective_cons]
  simp [hne]

theorem lastDirective_cons_en {a en dis : String} (rest : List String)
    (d : Bool) (ha : a = en) :
    lastDirective (a :: rest) en dis d = lastDirective rest en dis true := by
  rw [lastDirective_cons, ha]
  simp

theorem lastDirective_cons_dis {a en dis : String} (rest : List String)
    (d : Bool) (ha : a = dis) (hnd : (dis == en) = false) :
    lastDirective (a :: rest) en dis d = lastDirective rest en dis false := by
  rw [lastDirective_cons, ha]
  simp [hnd]

theorem parse_args_loop_spec :
    ∀ (args : List String) (path : Option String) (flags mask : Nat) (r : Args),
      parse_args_loop args path flags mask = some r →
      flags < 4 → mask < 4 → flags &&& (0xFFFF ^^^ mask) = 0 →
      (r.flags < 4 ∧ r.mask < 4 ∧ r.flags &&& (0xFFFF ^^^ r.mask) = 0) ∧
      (∀ i, mask.testBit i = true → r.mask.testBit i = true) ∧
      r.flags.testBit 0 =
        lastDirective args ("--enable-l0s") ("--disable-l0s") (flags.testBit 0) ∧
      r.flags.testBit 1 =
        lastDirective args ("--enable-l1") ("--disable-l1") (flags.testBit 1) := by
  intro args
  induction args with
  | nil =>
    intro path flags mask r h hf hm hinv
    cases path with
    | none => simp [parse_args_loop] at h
    | some p =>
      have hr : r = ⟨mask, flags, p⟩ := (Option.some.inj h).symm
      subst hr
      exact ⟨⟨hf, hm, hinv⟩, fun i hi => hi,
        by rw [lastDirective_nil], by rw [lastDirective_nil]⟩
  | cons a rest ih =>
    intro path flags mask r h hf hm hinv
    obtain ⟨⟨e01, e02, e03, e04, e05⟩, ⟨d01, d03, d04, d05⟩,
      ⟨e11, e12, e13, e14, e15⟩, ⟨d11, d13, d14, d15⟩⟩ :=
        parse_step_facts flags mask hf hm hinv
    by_cases he0 : a = "--enable-l0s"
    · rw [parse_args_loop.eq_def] at h
      simp only [he0, ite_true] at h
      have IH := ih path (flags ||| PCI_EXP_LNKCTL_ASPM_L0S)
        (mask ||| PCI_EXP_LNKCTL_ASPM_L0S) r h e01 e02 e03
      refine ⟨IH.1, fun i hi => IH.2.1 i (mask_or_monotone i hi), ?_, ?_⟩
      · rw [IH.2.2.1, lastDirective_cons_en rest _ he0]
        rw [show (flags ||| PCI_EXP_LNKCTL_ASPM_L0S).testBit 0 = true from e04]
      · rw [IH.2.2.2, lastDirective_cons_other rest _ (by rw [he0]; decide)]
        rw [show (flags ||| PCI_EXP_LNKCTL_ASPM_L0S).testBit 1 = flags.testBit 1
          from e05]
    · by_cases hd0 : a = "--disable-l0s"
      · rw [parse_args_loop.eq_def] at h
        simp only [he0, hd0, ite_true, ite_false] at h
        have IH := ih path (flags &&& (0xFFFF ^^^ PCI_EXP_LNKCTL_ASPM_L0S))
          (mask ||| PCI_EXP_LNKCTL_ASPM_L0S) r h d01 e02 d03
        refine ⟨IH.1, fun i hi => IH.2.1 i (mask_or_monotone i hi), ?_, ?_⟩
        · rw [IH.2.2.1, lastDirective_cons_dis rest _ hd0 (by decide)]
          rw [show (flags &&& (0xFFFF ^^^ PCI_EXP_LNKCTL_ASPM_L0S)).testBit 0 = false
            from d04]
        · rw [IH.2.2.2, lastDirective_cons_other rest _ (by rw [hd0]; decide)]
          rw [show (flags &&& (0xFFFF ^^^ PCI_EXP_LNKCTL_ASPM_L0S)).testBit 1 =
            flags.testBit 1 from d05]
      · by_cases he1 : a = "--enable-l1"
        · rw [parse_args_loop.eq_def] at h
          simp only [he0, hd0, he1, ite_true, ite_false] at h
          have IH := ih path (flags ||| PCI_EXP_LNKCTL_ASPM_L1)
            (mask ||| PCI_EXP_LNKCTL_ASPM_L1) r h e11 e12 e13
          refine ⟨IH.1, fun i hi => IH.2.1 i (mask_or_monotone i hi), ?_, ?_⟩
          · rw [IH.2.2.1, lastDirective_cons_other rest _ (by rw [he1]; decide)]
            rw [show (flags ||| PCI_EXP_LNKCTL_ASPM_L1).testBit 0 = flags.testBit 0
              from e15]
          · rw [IH.2.2.2, lastDirective_cons_en rest _ he1]
            rw [show (flags ||| PCI_EXP_LNKCTL_ASPM_L1).testBit 1 = true from e14]
        · by_cases hd1 : a = "--disable-l1"
          · rw [parse_args_loop.eq_def] at h
            simp only [he0, hd0, he1, hd1, ite_true, ite_false] at h
            have IH := ih path (flags &&& (0xFFFF ^^^ PCI_EXP_LNKCTL_ASPM_L1))
              (mask ||| PCI_EXP_LNKCTL_ASPM_L1) r h d11 e12 d13
            refine ⟨IH.1, fun i hi => IH.2.1 i (mask_or_monotone i hi), ?_, ?_⟩
            · rw [IH.2.2.1, lastDirective_cons_other rest _ (by rw [hd1]; decide)]
              rw [show (flags &&& (0xFFFF ^^^ PCI_EXP_LNKCTL_ASPM_L1)).testBit 0 =
                flags.testBit 0 from d15]
            · rw [IH.2.2.2, lastDirective_cons_dis rest _ hd1 (by decide)]
              rw [show (flags &&& (0xFFFF ^^^ PCI_EXP_LNKCTL_ASPM_L1)).testBit 1 =
                false from d14]
          · rw [parse_args_loop.eq_def] at h
            simp only [he0, hd0, he1, hd1, ite_true, ite_false] at h
            by_cases hpre : startsWithDashDash a = true
            · rw [if_pos hpre] at h
              exact Option.noConfusion h
            · rw [if_neg hpre] at h
              cases path with
              | some p => exact Option.noConfusion h
              | none =>
                have IH := ih (some a) flags mask r h hf hm hinv
                refine ⟨IH.1, IH.2.1, ?_, ?_⟩
                · rw [IH.2.2.1, lastDirective_cons_other rest _ ?_]
                  simp [he0, hd0]
                · rw [IH.2.2.2, lastDirective_cons_other rest _ ?_]
                  simp [he1, hd1]

/-! ### Claims -/

/-- C1 (counterexample): the claim as stated fails.  `cexBufC1` has a valid
forward-only capability chain from the head pointer, and the chain contains an
entry (at `0x44`) with id `0x10` and at least `0x3c` bytes of room to the next
entry and to the buffer end, yet `find_pci_exp_link_control` returns `None`,
because the traversal stops at the FIRST id-`0x10` entry (at `0x40`), whose
room fails the length check. -/
theorem c1_counterexample :
    cexBufC1[PCI_CAPABILITY_LIST]? = some 0x40 ∧
    ValidFrom cexBufC1 0x40 ∧
    Reach cexBufC1 0x40 0x44 ∧
    cexBufC1[0x44]? = some PCI_CAP_ID_EXP ∧
    RoomOK cexBufC1 0x44 ∧
    (find_pci_exp_link_control cexBufC1).2 = none := by
  refine ⟨by decide, ?_, ?_, by decide, ⟨?_, by decide⟩, ?_⟩
  · exact ValidFrom.step (show cexBufC1[(0x40 : Nat)]? = some 0x10 by decide)
      (show cexBufC1[(0x40 : Nat) + 1]? = some 0x44 by decide) (by decide)
      (ValidFrom.term (show cexBufC1[(0x44 : Nat)]? = some 0x10 by decide)
        (show cexBufC1[(0x44 : Nat) + 1]? = some 0 by decide))
  · exact Reach.step (show cexBufC1[(0x40 : Nat) + 1]? = some 0x44 by decide)
      (by decide) (Reach.refl _)
  · intro nx hnx hnz
    have h0 : cexBufC1[(0x44 : Nat) + 1]? = some 0 := by decide
    rw [h0] at hnx
    exact absurd (Option.some.inj hnx).symm hnz
  · rw [cexBufC1_resolve]

/-- C1 (amended, proved): for every buffer whose head pointer at `0x34` leads,
through well-formed non-matching forward entries, to a FIRST entry with id
`0x10` that passes the loop's length checks, `find_pci_exp_link_control`
returns exactly the range `[q + 0x10, q + 0x12)` for that entry's offset
`q`. -/
theorem c1_first_match_resolves (buf : List Nat) (hd q : Nat)
    (hh : buf[PCI_CAPABILITY_LIST]? = some hd)
    (hf : FindsFirst buf PCI_CAP_ID_EXP PCI_CAP_ID_EXP_LEN hd q) :
    find_pci_exp_link_control buf =
      ([], some (q + PCI_EXP_LNKCTL, q + PCI_EXP_LNKCTL + 2)) := by
  have hcap : find_pci_capability buf PCI_CAP_ID_EXP PCI_CAP_ID_EXP_LEN =
      ([], some (q, q + PCI_CAP_ID_EXP_LEN)) := by
    rw [cap_of_head hh]
    exact findsfirst_loop hf
  unfold find_pci_exp_link_control
  rw [hcap]

/-- C1 witness: on `wbuf` (the specification's own scenario: head `0x40`,
a non-matching entry at `0x40` pointing to a matching terminal entry at
`0x50` with room) the resolver returns `[0x60, 0x62)`. -/
theorem c1_first_match_resolves_witness :
    find_pci_exp_link_control wbuf = ([], some (0x60, 0x62)) :=
  c1_first_match_resolves wbuf 0x40 0x50 (by decide)
    (FindsFirst.there (show wbuf[(0x40 : Nat)]? = some 0x05 by decide)
      (show wbuf[(0x40 : Nat) + 1]? = some 0x50 by decide) (by decide)
      (by decide) (by decide)
      (FindsFirst.here (show wbuf[(0x50 : Nat)]? = some 0x10 by decide)
        (show wbuf[(0x50 : Nat) + 1]? = some 0 by decide) (by decide)
        (by decide) (by decide)))

/-- C2: for every old register value and every `(mask, flags)` pair of 16-bit
values with `flags & !mask == 0`, the patched value `(old & !mask) | flags`
agrees with `old` on every register bit outside `mask` and with `flags` on
every register bit inside `mask`. -/
theorem c2_patch_bits (old mask flags : Nat)
    (ho : old < 65536) (hm : mask < 65536) (hf : flags < 65536)
    (h : flags &&& (0xFFFF ^^^ mask) = 0) :
    ∀ i, i < 16 →
      (mask.testBit i = false →
        (link_control_new old mask flags).testBit i = old.testBit i) ∧
      (mask.testBit i = true →
        (link_control_new old mask flags).testBit i = flags.testBit i) := by
  intro i hi
  have hmaskbit : (0xFFFF ^^^ mask).testBit i = !(mask.testBit i) := by
    rw [Nat.testBit_xor, show (0xFFFF : Nat) = 2 ^ 16 - 1 by norm_num,
      Nat.testBit_two_pow_sub_one]
    simp [hi]
  have hflagsbit : (flags.testBit i && (0xFFFF ^^^ mask).testBit i) = false := by
    have hc := congrArg (fun n => n.testBit i) h
    simpa [Nat.testBit_and] using hc
  constructor
  · intro hmb
    have hfb : flags.testBit i = false := by
      rw [hmaskbit, hmb] at hflagsbit
      simpa using hflagsbit
    unfold link_control_new
    rw [Nat.testBit_or, Nat.testBit_and, hmaskbit, hmb, hfb]
    simp
  · intro hmb
    unfold link_control_new
    rw [Nat.testBit_or, Nat.testBit_and, hmaskbit, hmb]
    simp

/-- C2 witness: patching `old = 0` with `mask = 3, flags = 2` sets bit 1 from
`flags` and leaves bit 5 (outside the mask) equal to `old`'s bit 5. -/
theorem c2_patch_bits_witness :
    (link_control_new 0 3 2).testBit 1 = (2 : Nat).testBit 1 ∧
    (link_control_new 0 3 2).testBit 5 = (0 : Nat).testBit 5 := by
  have h := c2_patch_bits 0 3 2 (by decide) (by decide) (by decide) (by decide)
  exact ⟨(h 1 (by decide)).2 (by decide), (h 5 (by decide)).1 (by decide)⟩

/-- C3 (counterexample): the claim as stated fails at `p = 0`.  In `cexBufC3`
the head pointer is `0`, the matching id-`0x10` entry sits at offset `0` with
`next == 0`, and `0x3c ≤ buffer.len() - 0`, yet `find_pci_capability` fails:
at `p = 0` the guard `next >= p` also holds for `next == 0`, so the
room-to-next comparison IS applied to the literal value `0`. -/
theorem c3_counterexample :
    cexBufC3[PCI_CAPABILITY_LIST]? = some 0 ∧
    cexBufC3[(0 : Nat)]? = some PCI_CAP_ID_EXP ∧
    cexBufC3[(0 : Nat) + 1]? = some 0 ∧
    PCI_CAP_ID_EXP_LEN ≤ cexBufC3.length - 0 ∧
    (find_pci_capability cexBufC3 PCI_CAP_ID_EXP PCI_CAP_ID_EXP_LEN).2 = none := by
  refine ⟨by decide, by decide, by decide, by decide, ?_⟩
  rw [cexBufC3_cap]

/-- C3 (amended, proved): for a matching id-`0x10` entry with `next == 0`
reached by the traversal at an offset `p ≥ 1`, the length check is constrained
only by room to the buffer end: the lookup succeeds if and only if
`target_length ≤ buffer.len() - p`.  (At `p = 0` the code instead applies the
room-to-next comparison to the literal value `0` and fails, as the
counterexample shows.) -/
theorem c3_terminal_length_check (buf : List Nat) (tlen hd p : Nat)
    (hh : buf[PCI_CAPABILITY_LIST]? = some hd)
    (hv : Visits buf PCI_CAP_ID_EXP hd p)
    (hid : buf[p]? = some PCI_CAP_ID_EXP)
    (hnx : buf[p + 1]? = some 0)
    (hp : 1 ≤ p) :
    (find_pci_capability buf PCI_CAP_ID_EXP tlen).2 = some (p, p + tlen) ↔
      tlen ≤ buf.length - p := by
  rw [cap_of_head hh, visits_loop tlen hv]
  constructor
  · intro hs
    by_cases hov : ((0 : Nat) ≥ p ∧ tlen > 0 - p) ∨ tlen > buf.length - p
    · rw [find_loop_overflow hid hnx (by simp) hov] at hs
      simp at hs
    · omega
  · intro hle
    rw [find_loop_found hid hnx (by simp) (by omega)]

/-- C3 witness: on `wbufC3` (matching terminal entry at `0x10`, buffer length
`0x50`) the lookup succeeds with range `[0x10, 0x4c)` since
`0x3c ≤ 0x50 - 0x10`. -/
theorem c3_terminal_length_check_witness :
    (find_pci_capability wbufC3 PCI_CAP_ID_EXP 0x3c).2 = some (0x10, 0x4c) := by
  have h := c3_terminal_length_check wbufC3 0x3c 0x10 0x10 (by decide)
    (Visits.refl _) (by decide) (by decide) (by decide)
  exact h.mpr (by decide)

/-- C4: whenever the traversal reaches an entry at offset `q` whose next
pointer satisfies `0 < next < q + 2`, the lookup fails with the
malformed-list diagnostic, with no constraint on the entry's id (the check
precedes the id match, so this holds even when the id equals the target) and
regardless of any later entry. -/
theorem c4_malformed_fatal (buf : List Nat) (tid tlen hd q id nx : Nat)
    (hh : buf[PCI_CAPABILITY_LIST]? = some hd)
    (hv : Visits buf tid hd q)
    (h1 : buf[q]? = some id) (h2 : buf[q + 1]? = some nx)
    (hnz : 0 < nx) (hlt : nx < q + 2) :
    find_pci_capability buf tid tlen =
      (["error: next capability pointer invalid"], none) := by
  rw [cap_of_head hh, visits_loop tlen hv]
  exact find_loop_malformed h1 h2 (by omega) hlt

/-- C4 witness: in `wbufC4` the very first entry has id `0x10` equal to the
target AND a malformed next pointer `0x41`; the lookup fails with the
malformed-list diagnostic rather than matching it. -/
theorem c4_malformed_fatal_witness :
    find_pci_capability wbufC4 PCI_CAP_ID_EXP PCI_CAP_ID_EXP_LEN =
      (["error: next capability pointer invalid"], none) :=
  c4_malformed_fatal wbufC4 PCI_CAP_ID_EXP PCI_CAP_ID_EXP_LEN 0x40 0x40 0x10 0x41
    (by decide) (Visits.refl _) (by decide) (by decide) (by decide) (by decide)

/-- C5: for every buffer whose capability list is a valid forward-only chain
containing no entry with id `0x10`, `find_pci_exp_link_control` fails with
exactly the not-found diagnostic — in particular neither the length-overflow
nor the malformed-list diagnostic was emitted, and no out-of-bounds read
occurred (every read along the chain is within bounds by validity). -/
theorem c5_absent_not_found (buf : List Nat) (hd : Nat)
    (hh : buf[PCI_CAPABILITY_LIST]? = some hd)
    (hv : ValidFrom buf hd)
    (hno : ∀ q, Reach buf hd q → buf[q]? ≠ some PCI_CAP_ID_EXP) :
    find_pci_exp_link_control buf =
      (["error: unable to find pci express capability structure"], none) := by
  have hcap : find_pci_capability buf PCI_CAP_ID_EXP PCI_CAP_ID_EXP_LEN =
      ([], none) := by
    rw [cap_of_head hh]
    exact valid_nomatch_loop _ hv hno
  rw [resolve_of_fail hcap]
  rfl

/-- C5 witness: `wbufC5` holds a single terminal entry with id `0x05`; the
resolver fails with only the not-found diagnostic. -/
theorem c5_absent_not_found_witness :
    find_pci_exp_link_control wbufC5 =
      (["error: unable to find pci express capability structure"], none) := by
  apply c5_absent_not_found wbufC5 0x40 (by decide)
    (ValidFrom.term (show wbufC5[(0x40 : Nat)]? = some 0x05 by decide)
      (show wbufC5[(0x40 : Nat) + 1]? = some 0 by decide))
  intro q hr
  have hq : q = 0x40 :=
    reach_of_term (show wbufC5[(0x40 : Nat) + 1]? = some 0 by decide) hr
  subst hq
  decide

/-- Evaluation of `run_patch` once the register range and the two register
bytes are known. -/
theorem run_patch_eq {buf : List Nat} {mask flags : Nat} {msgs : List String}
    {s e lo hi : Nat}
    (h : find_pci_exp_link_control buf = (msgs, some (s, e)))
    (hlo : buf[s]? = some lo) (hhi : buf[s + 1]? = some hi) :
    run_patch buf mask flags =
      if link_control_new ((hi <<< 8) ||| lo) mask flags ≠ (hi <<< 8) ||| lo
      then some [(s, [link_control_new ((hi <<< 8) ||| lo) mask flags % 256,
                      (link_control_new ((hi <<< 8) ||| lo) mask flags >>> 8) % 256])]
      else some [] := by
  simp only [run_patch, h, hlo, hhi]

/-- C6: whenever the resolver succeeds, the run performs a write if and only
if the computed new value differs from the old little-endian register value;
the write, when performed, is a single positioned write of exactly the two
little-endian bytes of the new value at the start of the resolved range, and
when the values agree the run succeeds having written nothing. -/
theorem c6_conditional_write (buf : List Nat) (mask flags : Nat)
    (msgs : List String) (s e : Nat)
    (h : find_pci_exp_link_control buf = (msgs, some (s, e))) :
    ∃ lo hi, buf[s]? = some lo ∧ buf[s + 1]? = some hi ∧
      (link_control_new ((hi <<< 8) ||| lo) mask flags ≠ (hi <<< 8) ||| lo →
        run_patch buf mask flags =
          some [(s, [link_control_new ((hi <<< 8) ||| lo) mask flags % 256,
                     (link_control_new ((hi <<< 8) ||| lo) mask flags >>> 8) % 256])]) ∧
      (link_control_new ((hi <<< 8) ||| lo) mask flags = (hi <<< 8) ||| lo →
        run_patch buf mask flags = some []) := by
  obtain ⟨cs, hcap, hs, he, hlen, hm⟩ := find_pci_exp_link_control_some h
  simp only [PCI_EXP_LNKCTL, PCI_CAP_ID_EXP_LEN] at hs he hlen
  have hs1 : s + 1 < buf.length := by omega
  have hs0 : s < buf.length := by omega
  have hlo : buf[s]? = some (buf.get ⟨s, hs0⟩) := List.getElem?_eq_getElem hs0
  have hhi : buf[s + 1]? = some (buf.get ⟨s + 1, hs1⟩) :=
    List.getElem?_eq_getElem hs1
  refine ⟨buf.get ⟨s, hs0⟩, buf.get ⟨s + 1, hs1⟩, hlo, hhi, ?_, ?_⟩
  · intro hne
    rw [run_patch_eq h hlo hhi, if_pos hne]
  · intro heq
    rw [run_patch_eq h hlo hhi, if_neg (not_not_intro heq)]

/-- C6 witness: on `wbuf` with `mask = 3, flags = 2` the old value is `0`, the
new value is `2 ≠ 0`, and the run performs the single 2-byte little-endian
positioned write `[2, 0]` at offset `0x60`. -/
theorem c6_conditional_write_witness :
    run_patch wbuf 3 2 = some [(0x60, [2, 0])] := by
  obtain ⟨lo, hi, hlo, hhi, hw, _⟩ :=
    c6_conditional_write wbuf 3 2 [] 0x60 0x62 wbuf_resolve
  have hlo0 : lo = 0 := by
    have hv : wbuf[(0x60 : Nat)]? = some 0 := by decide
    rw [hv] at hlo
    exact (Option.some.inj hlo).symm
  have hhi0 : hi = 0 := by
    have hv : wbuf[(0x60 : Nat) + 1]? = some 0 := by decide
    rw [hv] at hhi
    exact (Option.some.inj hhi).symm
  subst hlo0
  subst hhi0
  rw [hw (by decide)]
  decide

/-- C7: the three failure outcomes of capability location are observationally
distinct at the operation's interface: all three return `None`, and the
accompanying diagnostic output differs pairwise between the not-found,
malformed-list and length-overflow outcomes, so a caller can assert on the
specific kind. -/
theorem c7_distinct_failures :
    ((find_pci_exp_link_control bufNotFound).2 = none ∧
     (find_pci_exp_link_control bufMalformed).2 = none ∧
     (find_pci_exp_link_control bufOverflow).2 = none) ∧
    (find_pci_exp_link_control bufNotFound).1 ≠
      (find_pci_exp_link_control bufMalformed).1 ∧
    (find_pci_exp_link_control bufNotFound).1 ≠
      (find_pci_exp_link_control bufOverflow).1 ∧
    (find_pci_exp_link_control bufMalformed).1 ≠
      (find_pci_exp_link_control bufOverflow).1 := by
  rw [bufNotFound_resolve, bufMalformed_resolve, bufOverflow_resolve]
  refine ⟨⟨rfl, rfl, rfl⟩, by decide, by decide, by decide⟩

/-- C8: the traversal terminates on every finite buffer: the loop, run with an
iteration budget of `buffer.length + 1`, always returns within the budget and
computes exactly `find_loop` — each iteration either returns or strictly
increases the capability pointer, which the bounds-checked reads keep below
the buffer length. -/
theorem c8_terminates (buf : List Nat) (tid tlen p : Nat) :
    find_loop_fuel buf tid tlen (buf.length + 1) p =
      some (find_loop buf tid tlen p) :=
  find_loop_fuel_eq (buf.length + 1) p (by omega)

/-- C9: every accepted argument sequence yields `flags` and `mask` with
`flags & !mask == 0` and both confined to bits 0-1; for each bit the final
`flags` value is determined by the last option naming that bit; and along the
processing loop `mask` only ever grows. -/
theorem c9_parse_args_invariants :
    (∀ args r, parse_args args = some r →
      (r.flags < 4 ∧ r.mask < 4 ∧ r.flags &&& (0xFFFF ^^^ r.mask) = 0) ∧
      r.flags.testBit 0 =
        lastDirective args ("--enable-l0s") ("--disable-l0s") false ∧
      r.flags.testBit 1 =
        lastDirective args ("--enable-l1") ("--disable-l1") false) ∧
    (∀ args path flags mask r, parse_args_loop args path flags mask = some r →
      flags < 4 → mask < 4 → flags &&& (0xFFFF ^^^ mask) = 0 →
      ∀ i, mask.testBit i = true → r.mask.testBit i = true) := by
  constructor
  · intro args r h
    have hs := parse_args_loop_spec args none 0 0 r h (by decide) (by decide)
      (by decide)
    exact ⟨hs.1, hs.2.2.1, hs.2.2.2⟩
  · intro args path flags mask r h hf hm hinv
    exact (parse_args_loop_spec args path flags mask r h hf hm hinv).2.1

/-- C9 witness: parsing `--disable-l1 --enable-l1 dev` yields
`mask = flags = 2`; the invariant holds and bit 1 follows the last option
(`--enable-l1`, so `true`). -/
theorem c9_parse_args_invariants_witness :
    ((2 : Nat) &&& (0xFFFF ^^^ (2 : Nat)) = 0) ∧
    Nat.testBit 2 1 =
      lastDirective ["--disable-l1", "--enable-l1", "dev"]
        "--enable-l1" "--disable-l1" false := by
  have hp : parse_args ["--disable-l1", "--enable-l1", "dev"] =
      some ⟨2, 2, "dev"⟩ := by decide
  have h := c9_parse_args_invariants.1 ["--disable-l1", "--enable-l1", "dev"]
    ⟨2, 2, "dev"⟩ hp
  exact ⟨h.1.2.2, h.2.2⟩

/-- C10: whenever the resolver returns a range, the whole range lies inside
the buffer (`e = s + 2 ≤ buffer.length`), so the two unchecked register reads
at `s` and `s + 1` performed by `main` are in bounds. -/
theorem c10_resolved_range_in_bounds (buf : List Nat) (msgs : List String)
    (s e : Nat)
    (h : find_pci_exp_link_control buf = (msgs, some (s, e))) :
    e = s + 2 ∧ e ≤ buf.length ∧
    (buf[s]?).isSome = true ∧ (buf[s + 1]?).isSome = true := by
  obtain ⟨cs, hcap, hs, he, hlen, hm⟩ := find_pci_exp_link_control_some h
  simp only [PCI_EXP_LNKCTL, PCI_CAP_ID_EXP_LEN] at hs he hlen
  refine ⟨by omega, by omega, ?_, ?_⟩
  · rw [List.getElem?_eq_getElem (show s < buf.length by omega)]
    rfl
  · rw [List.getElem?_eq_getElem (show s + 1 < buf.length by omega)]
    rfl

/-- C10 witness: on `wbuf` the resolved range `[0x60, 0x62)` lies inside the
`0x8c`-byte buffer and both register reads are in bounds. -/
theorem c10_resolved_range_in_bounds_witness :
    (0x62 : Nat) = 0x60 + 2 ∧ (0x62 : Nat) ≤ wbuf.length ∧
    (wbuf[(0x60 : Nat)]?).isSome = true ∧
    (wbuf[(0x60 : Nat) + 1]?).isSome = true :=
  c10_resolved_range_in_bounds wbuf [] 0x60 0x62 wbuf_resolve

end Aspmctl
